import Mathlib

/-
Verification development for the api-test-framework repository.

Shallow embedding of:
  * the assertion evaluator and the assertion loop of
    internal/testrunner/httpexpect_executor.go (executeAssertion, ExecuteTest);
  * the curl command parser of internal/utils/curl_parser.go
    (ParseCurlCommand, stripQuotes, classifyRequest, ToTestSpec);
  * the run aggregation of the test-run service (StartTestRun, executeTests).

Modelling conventions:
  * Go `interface{}` values decoded from JSON are modelled by the inductive
    `JsonValue`; JSON numbers are modelled as integers (every number any claim
    exercises is integral; float64 rounding plays no role in the claims).
  * Go maps decoded from JSON objects are association lists with unique keys;
    lookup is `List.lookup`.
  * Go runtime panics are modelled by `Option`/dedicated outcome constructors
    (`none` / `.panic` mean the Go code panics at that point).
  * The executor serialises the response envelope to a JSON string and queries
    it with gjson.  Marshalling followed by gjson dot-path lookup is modelled
    directly as structural resolution (`jResolve`) over the envelope value;
    this is semantics preserving because marshal/parse round-trips.  gjson's
    `Result.Exists()` is true whenever the path is present in the document,
    including an explicit JSON null (its Raw text "null" is non-empty), so
    resolution returns `Option JsonValue` with `some .null` for an explicit
    null and `none` only for an absent path.
  * Strings are handled at `List Char` granularity where the Go code indexes
    bytes; all characters the claims exercise are ASCII, where Go's byte
    operations and rune operations agree.
-/

/-- A decoded JSON value, as produced by Go's encoding/json into interface\x7b\x7d.
Numbers are modelled as integers (see file header). -/
inductive JsonValue where
  | null
  | bool (b : Bool)
  | num (n : Int)
  | str (s : String)
  | arr (elems : List JsonValue)
  | obj (fields : List (String × JsonValue))
deriving Repr

/-- A Go map decoded from a JSON object: association list with unique keys. -/
abbrev JMap := List (String × JsonValue)

/-- Go map indexing m[k]: first (only) binding of the key. -/
def jGet (m : JMap) (k : String) : Option JsonValue :=
  List.lookup k m

/-- Split a character list at every occurrence of the separator
(gjson splits its dot paths this way; no claim uses gjson escapes). -/
def splitOnChar (sep : Char) : List Char → List (List Char)
  | [] => [[]]
  | c :: rest =>
    let r := splitOnChar sep rest
    if c = sep then [] :: r
    else
      match r with
      | h :: t => (c :: h) :: t
      | [] => [[c]]

/-- The segments of a gjson dot path. -/
def pathSegs (p : String) : List String :=
  (splitOnChar '.' p.data).map String.mk

/-- Whether a path segment is a decimal array index. -/
def isNatSeg (s : String) : Bool :=
  !s.data.isEmpty && s.data.all Char.isDigit

/-- Numeric value of a decimal path segment. -/
def natOfSeg (s : String) : Nat :=
  s.data.foldl (fun n c => n * 10 + (c.toNat - 48)) 0

/-- gjson resolution of a dot path against a decoded JSON document.
`none` means the path does not appear in the document; `some .null` means the
path is present with an explicit null value (gjson `Exists()` is true there). -/
def jResolve (path : List String) (v : JsonValue) : Option JsonValue :=
  match path, v with
  | [], v => some v
  | s :: rest, .obj fs =>
    match List.lookup s fs with
    | some w => jResolve rest w
    | none => none
  | s :: rest, .arr xs =>
    if isNatSeg s then
      match xs.get? (natOfSeg s) with
      | some w => jResolve rest w
      | none => none
    else none
  | _ :: _, _ => none

/-- gjson `Result.Value()`: a missing path and an explicit JSON null both
come back as the nil interface. -/
def valueOf : Option JsonValue → JsonValue
  | none => .null
  | some v => v

/-- Go `==` on two interface\x7b\x7d values decoded from JSON: equal dynamic
type and value; comparing two slices or two maps panics (`none`); different
dynamic types compare unequal without panicking. -/
def goEq : JsonValue → JsonValue → Option Bool
  | .null, .null => some true
  | .bool a, .bool b => some (a == b)
  | .num a, .num b => some (a == b)
  | .str a, .str b => some (a == b)
  | .arr _, .arr _ => none
  | .obj _, .obj _ => none
  | _, _ => some false

/-- JSON text of a value.  Only used for composite values in diagnostic
strings, which no claim exercises. -/
def jsonSerialize : JsonValue → String
  | .null => "null"
  | .bool true => "true"
  | .bool false => "false"
  | .num n => toString n
  | .str s => "\"" ++ s ++ "\""
  | .arr xs => "[" ++ String.intercalate "," (xs.attach.map (fun x => jsonSerialize x.1)) ++ "]"
  | .obj fs =>
    "\x7b" ++ String.intercalate ","
      (fs.attach.map (fun kv => "\"" ++ kv.1.1 ++ "\":" ++ jsonSerialize kv.1.2)) ++ "\x7d"
decreasing_by
  all_goals simp_wf
  · have h := List.sizeOf_lt_of_mem x.2
    omega
  · have h := List.sizeOf_lt_of_mem kv.2
    obtain ⟨⟨a, b⟩, hm⟩ := kv
    simp only [Prod.mk.sizeOf_spec] at h ⊢
    omega

/-- gjson `Result.String()`: empty for missing paths and nulls, the literal
text for booleans and numbers, the unquoted string for strings, and the raw
JSON text for composite values. -/
def gjsonString : Option JsonValue → String
  | none => ""
  | some .null => ""
  | some (.bool true) => "true"
  | some (.bool false) => "false"
  | some (.num n) => toString n
  | some (.str s) => s
  | some v => jsonSerialize v

/-- Go fmt %v of an interface\x7b\x7d value decoded from JSON; the composite
cases are diagnostic-only approximations no claim exercises. -/
def goFmtV : JsonValue → String
  | .null => "<nil>"
  | .bool true => "true"
  | .bool false => "false"
  | .num n => toString n
  | .str s => s
  | v => jsonSerialize v

/-- strings.ReplaceAll(path, "[", ".") followed by strings.ReplaceAll(_, "]", "")
from the bracket-path rewrite in executeAssertion. -/
def bracketToDot (p : String) : String :=
  String.mk ((p.data.map (fun c => if c = '[' then '.' else c)).filter (fun c => c ≠ ']'))

/-- The path rewrite the exists/equals branches of executeAssertion apply:
a path whose first byte is an opening bracket is rewritten to dot notation
with "body" prepended; any other path is used unmodified. -/
def normalizePath (p : String) : String :=
  match p.data with
  | [] => p
  | c :: _ => if c = '[' then "body" ++ bracketToDot p else p

/-- The response envelope the executor builds: status code, headers, decoded
body (lines 153-157 and 232-236 of httpexpect_executor.go). -/
structure Envelope where
  statusCode : Int
  headers : List (String × JsonValue)
  body : JsonValue

/-- The JSON document the executor marshals the envelope into before querying
it with gjson. -/
def envJson (e : Envelope) : JsonValue :=
  .obj [("status_code", .num e.statusCode), ("headers", .obj e.headers), ("body", e.body)]

/-- testrunner.AssertionResult.  Go's zero interface is modelled by `.null`
in `expected`/`actual` (Go cannot distinguish an unset interface field from
one set to nil). -/
structure AssertionResult where
  type : String := ""
  path : String := ""
  matcher : String := ""
  expected : JsonValue := .null
  actual : JsonValue := .null
  passed : Bool := true
  message : String := ""
deriving Repr

/-- executeAssertion of httpexpect_executor.go.  `none` models a Go panic
(a failed `.(string)` type assertion on the "type" or "matcher" field, or an
interface comparison of two uncomparable values). -/
def executeAssertion (env : Envelope) (a : JMap) : Option AssertionResult :=
  match jGet a "type" with
  | some (.str ty) =>
    match ty with
    | "status_code" =>
      some
        (match jGet a "value" with
         | some (.num e) =>
           let actual := env.statusCode
           let ok := actual == e || (e == 200 && actual == 201)
           { type := ty, expected := .num e, actual := .num actual, passed := ok,
             message := if ok then "" else
               "Expected status code " ++ toString e ++ ", got " ++ toString actual }
         | _ => { type := ty })
    | "exists" =>
      some
        (match jGet a "path" with
         | some (.str p) =>
           let fullPath := normalizePath p
           let res := jResolve (pathSegs fullPath) (envJson env)
           { type := ty, path := fullPath, matcher := "exists", passed := res.isSome,
             message := if res.isSome then "" else
               "JSON path '" ++ fullPath ++ "' does not exist" }
         | _ => { type := ty })
    | "equals" =>
      match jGet a "path" with
      | some (.str p) =>
        let fullPath := normalizePath p
        let res := jResolve (pathSegs fullPath) (envJson env)
        let av := valueOf res
        (match jGet a "value" with
         | some ev =>
           (goEq av ev).map (fun eq =>
             { type := ty, path := fullPath, matcher := "equals",
               expected := ev, actual := av, passed := eq,
               message := if eq then "" else
                 "Expected '" ++ goFmtV ev ++ "', got '" ++ goFmtV av ++ "' for path '" ++ fullPath ++ "'" })
         | none => some { type := ty, path := fullPath, matcher := "equals" })
      | _ => some { type := ty }
    | "json_path" =>
      match jGet a "path" with
      | some (.str p) =>
        match jGet a "matcher" with
        | some (.str matcher) =>
          let res :=
            match env.body with
            | .null => none
            | b => jResolve (pathSegs p) b
          match matcher with
          | "exists" =>
            some { type := ty, path := p, matcher := matcher, passed := res.isSome,
                   message := if res.isSome then "" else
                     "JSON path '" ++ p ++ "' does not exist" }
          | "equals" =>
            (match jGet a "expected" with
             | some ev =>
               (goEq (valueOf res) ev).map (fun eq =>
                 { type := ty, path := p, matcher := matcher,
                   expected := ev, actual := valueOf res, passed := eq,
                   message := if eq then "" else
                     "Expected '" ++ goFmtV ev ++ "', got '" ++ goFmtV (valueOf res) ++ "'" })
             | none => some { type := ty, path := p, matcher := matcher })
          | "contains" =>
            (match jGet a "expected" with
             | some (.str ev) =>
               let actualStr := gjsonString res
               some { type := ty, path := p, matcher := matcher,
                      expected := .str ev, actual := .str actualStr,
                      passed := actualStr == ev,
                      message := if actualStr == ev then "" else
                        "Expected to contain '" ++ ev ++ "', got '" ++ actualStr ++ "'" }
             | _ => some { type := ty, path := p, matcher := matcher })
          | _ => some { type := ty, path := p, matcher := matcher }
        | _ => none
      | _ => some { type := ty }
    | "response_time" =>
      some
        (match jGet a "expected" with
         | some (.num e) =>
           { type := ty, expected := .num e, passed := true,
             message := "Response time assertion not implemented yet" }
         | _ => { type := ty })
    | _ => some { type := ty, passed := false, message := "Unknown assertion type: " ++ ty }
  | _ => none

/-- The header-path skip of the ExecuteTest assertion loop (line 189). -/
def skipAssertion (m : JMap) : Bool :=
  match jGet m "path" with
  | some (.str p) => p == "headers.Content-Type" || p == "headers"
  | _ => false

/-- The assertion loop of ExecuteTest (lines 180-203): walks the decoded
assertion list, skipping non-object entries and header-path assertions,
recording every evaluated result, marking the test FAILED and overwriting the
error message on every failing assertion.  `none` models a Go panic inside
executeAssertion. -/
def runAssertions (env : Envelope) (st : String) (msg : String)
    (acc : List AssertionResult) : List JsonValue → Option (String × String × List AssertionResult)
  | [] => some (st, msg, acc)
  | a :: rest =>
    match a with
    | .obj m =>
      if skipAssertion m then runAssertions env st msg acc rest
      else
        match executeAssertion env m with
        | none => none
        | some r =>
          if r.passed then runAssertions env st msg (acc ++ [r]) rest
          else runAssertions env "FAILED" r.message (acc ++ [r]) rest
    | _ => runAssertions env st msg acc rest

/-- The assertions dispatch of ExecuteTest (lines 171-180): the decoded value
of the "assertions" key must be a JSON array, otherwise the test fails with
"No assertions found"; an array runs the assertion loop from the initial
PASSED state. -/
def assertionsPhase (env : Envelope) (assertionsField : Option JsonValue) :
    Option (String × String × List AssertionResult) :=
  match assertionsField with
  | some (.arr as) => runAssertions env "PASSED" "" [] as
  | _ => some ("FAILED", "No assertions found", [])

/-- models.AssertionSpec: the typed assertion record.  Go omitempty drops
empty path/matcher strings; the expected field has no omitempty and a nil
interface serialises to JSON null. -/
structure AssertionSpec where
  type : String
  path : String := ""
  matcher : String := ""
  expected : Option JsonValue := none

/-- The JSON object encoding/json produces for an AssertionSpec. -/
def assertionSpecJson (s : AssertionSpec) : JMap :=
  [("type", .str s.type)]
    ++ (if s.path = "" then [] else [("path", .str s.path)])
    ++ (if s.matcher = "" then [] else [("matcher", .str s.matcher)])
    ++ [("expected", s.expected.getD .null)]

/-- The JSON value of the "assertions" key after marshalling a TestSpec:
a nil Go slice serialises to JSON null, a present slice to an array. -/
def testSpecAssertionsJson (asserts : Option (List AssertionSpec)) : JsonValue :=
  match asserts with
  | none => .null
  | some l => .arr (l.map (fun s => .obj (assertionSpecJson s)))

/-- The default assertion list ToTestSpec of curl_parser.go generates
(lines 258-263): a single status_code assertion keyed "expected". -/
def toTestSpecAssertions : List JMap :=
  [[("type", .str "status_code"), ("expected", .num 200)]]

/-- The apostrophe character (ASCII 39). -/
def sqCh : Char := Char.ofNat 39

/-- The double-quote character (ASCII 34). -/
def dqCh : Char := Char.ofNat 34

/-- The backslash character (ASCII 92). -/
def bslashCh : Char := Char.ofNat 92

/-- The newline character (ASCII 10). -/
def nlCh : Char := Char.ofNat 10

/-- The opening curly brace character (ASCII 123). -/
def obraceCh : Char := Char.ofNat 123

/-- The closing curly brace character (ASCII 125). -/
def cbraceCh : Char := Char.ofNat 125

/-- Go unicode.IsSpace restricted to the ASCII whitespace characters any
claim exercises. -/
def goIsSpace (c : Char) : Bool :=
  c = ' ' || c = '\t' || c = nlCh || c = '\r' || c = Char.ofNat 11 || c = Char.ofNat 12

/-- strings.TrimSpace on a character list. -/
def goTrimSpace (s : List Char) : List Char :=
  ((s.dropWhile goIsSpace).reverse.dropWhile goIsSpace).reverse

/-- stripQuotes of curl_parser.go.  After trimming, a string that both starts
and ends with the same quote character is sliced as s[1:len(s)-1]; on the
one-character strings "'" and "\"" that Go slice is s[1:0], a runtime panic,
modelled as `none`. -/
def stripQuotes (s : List Char) : Option (List Char) :=
  let t := goTrimSpace s
  if (t.head? = some sqCh ∧ t.getLast? = some sqCh)
      ∨ (t.head? = some dqCh ∧ t.getLast? = some dqCh) then
    if 2 ≤ t.length then some (t.drop 1).dropLast else none
  else some t

/-- strings.ReplaceAll(cmd, "\\\n", " "): joins backslash-newline line
continuations, scanning left to right without overlap. -/
def replaceBackslashNewline : List Char → List Char
  | [] => []
  | [c] => [c]
  | c :: d :: rest =>
    if c = bslashCh ∧ d = nlCh then ' ' :: replaceBackslashNewline rest
    else c :: replaceBackslashNewline (d :: rest)

/-- strings.ReplaceAll(cmd, "\\", ""): removes every remaining backslash. -/
def removeBackslashes (s : List Char) : List Char :=
  s.filter (fun c => c ≠ bslashCh)

/-- strings.Fields: maximal runs of non-whitespace characters. -/
def goFieldsAux : List Char → List Char → List (List Char)
  | cur, [] => if cur.isEmpty then [] else [cur.reverse]
  | cur, c :: rest =>
    if goIsSpace c then
      if cur.isEmpty then goFieldsAux [] rest else cur.reverse :: goFieldsAux [] rest
    else goFieldsAux (c :: cur) rest

/-- strings.Join(strings.Fields(s), " "): collapse whitespace runs to single
spaces (line 32 of curl_parser.go). -/
def fieldsJoin (s : List Char) : List Char :=
  List.intercalate [' '] (goFieldsAux [] s)

/-- Fuel-bounded tokenizer body for the regex `'[^']*'|"[^"]*"|\S+`:
at each non-space position, a quote with a matching closer yields the quoted
span as one token (spaces included); otherwise the maximal non-space run is
the token.  Go regexp alternation is leftmost-first, so a quoted match at the
start of a token beats the plain run. -/
def tokenizeF : Nat → List Char → List (List Char)
  | 0, _ => []
  | _ + 1, [] => []
  | fuel + 1, c :: rest =>
    if c = ' ' then tokenizeF fuel rest
    else if (c = sqCh ∨ c = dqCh) ∧ rest.contains c then
      let inside := rest.takeWhile (fun d => d ≠ c)
      let after := (rest.drop inside.length).drop 1
      (c :: (inside ++ [c])) :: tokenizeF fuel after
    else
      (c :: rest.takeWhile (fun d => d ≠ ' ')) :: tokenizeF fuel (rest.dropWhile (fun d => d ≠ ' '))

/-- Tokenization of the normalized command; each step consumes at least one
character, so length-plus-one fuel is never exhausted. -/
def tokenize (s : List Char) : List (List Char) :=
  tokenizeF (s.length + 1) s

/-- strings.SplitN(s, sep, 2) for a single-character separator: at most two
pieces, split at the first occurrence. -/
def splitN2 (sep : Char) (s : List Char) : List (List Char) :=
  let pre := s.takeWhile (fun c => c ≠ sep)
  if pre.length = s.length then [s] else [pre, s.drop (pre.length + 1)]

/-- Go map[string]string assignment m[k] = v: overwrite the key if present,
append otherwise. -/
def hinsert (hs : List (String × String)) (k v : String) : List (String × String) :=
  if hs.any (fun kv => kv.1 = k) then hs.map (fun kv => if kv.1 = k then (k, v) else kv)
  else hs ++ [(k, v)]

/-- Go test for a leading literal (strings.HasPre fix) on ASCII strings. -/
def startsWithS (s pre : String) : Bool :=
  pre.data.isPrefixOf s.data

/-- strings.Contains. -/
def containsSub (s pat : String) : Bool :=
  s.data.tails.any (fun t => pat.data.isPrefixOf t)

/-- strings.ToUpper (ASCII). -/
def goToUpper (s : String) : String :=
  String.mk (s.data.map Char.toUpper)

/-- strings.ToLower (ASCII). -/
def goToLower (s : String) : String :=
  String.mk (s.data.map Char.toLower)

/-- The mutable fields of the token walk of ParseCurlCommand. -/
structure CurlState where
  method : String
  url : String
  headers : List (String × String)
  body : String
deriving Repr, DecidableEq

/-- Outcome of the token walk: a Go panic inside stripQuotes, an error
return, or the final state. -/
inductive WalkOut where
  | panic
  | fail (msg : String)
  | done (st : CurlState)
deriving Repr, DecidableEq

/-- The token walk of ParseCurlCommand (lines 50-143 of curl_parser.go): each
recognized flag consumes the following token as its argument; data and form
flags promote a GET method to POST before reading their argument; any other
token that looks like an absolute URL or a bare localhost form becomes the
URL. -/
def walkTokens : CurlState → List (List Char) → WalkOut
  | st, [] => .done st
  | st, t :: rest =>
    match stripQuotes t with
    | none => .panic
    | some tc =>
      let token := String.mk tc
      if token = "curl" then walkTokens st rest
      else if token = "-X" ∨ token = "--request" then
        match rest with
        | [] => .fail "missing method after -X/--request"
        | arg :: rest2 =>
          match stripQuotes arg with
          | none => .panic
          | some m => walkTokens { st with method := goToUpper (String.mk m) } rest2
      else if token = "-H" ∨ token = "--header" then
        match rest with
        | [] => .fail "missing header value after -H/--header"
        | arg :: rest2 =>
          match stripQuotes arg with
          | none => .panic
          | some h =>
            match splitN2 ':' h with
            | [k, v] =>
              walkTokens
                { st with headers := hinsert st.headers (String.mk (goTrimSpace k)) (String.mk (goTrimSpace v)) }
                rest2
            | _ => .fail ("invalid header format: " ++ String.mk h)
      else if token = "--location" ∨ token = "-L" then walkTokens st rest
      else if token = "--data" ∨ token = "--data-raw" ∨ token = "--data-binary" ∨ token = "-d" then
        let st1 := if st.method = "GET" then { st with method := "POST" } else st
        match rest with
        | [] => .fail "missing data after --data/-d"
        | arg :: rest2 =>
          match stripQuotes arg with
          | none => .panic
          | some d => walkTokens { st1 with body := String.mk d } rest2
      else if token = "--form" ∨ token = "-F" then
        let st1 := if st.method = "GET" then { st with method := "POST" } else st
        match rest with
        | [] => .fail "missing form data after --form/-F"
        | arg :: rest2 =>
          match stripQuotes arg with
          | none => .panic
          | some fd =>
            match splitN2 '=' fd with
            | [k, v] =>
              let pair := String.mk k ++ "=" ++ String.mk v
              walkTokens
                { st1 with body := if st1.body = "" then pair else st1.body ++ "&" ++ pair }
                rest2
            | _ => walkTokens st1 rest2
      else if token = "--user" ∨ token = "-u" then
        match rest with
        | [] => .fail "missing credentials after --user/-u"
        | arg :: rest2 =>
          match stripQuotes arg with
          | none => .panic
          | some cr =>
            match splitN2 ':' cr with
            | [_, _] =>
              walkTokens
                { st with headers := hinsert st.headers "Authorization" ("Basic " ++ String.mk cr) }
                rest2
            | _ => walkTokens st rest2
      else if token = "--cookie" ∨ token = "-b" then
        match rest with
        | [] => .fail "missing cookie value after --cookie/-b"
        | arg :: rest2 =>
          match stripQuotes arg with
          | none => .panic
          | some ck => walkTokens { st with headers := hinsert st.headers "Cookie" (String.mk ck) } rest2
      else if token = "--compressed" ∨ token = "-C" then walkTokens st rest
      else if token = "--insecure" ∨ token = "-k" then walkTokens st rest
      else if token = "--silent" ∨ token = "-s" then walkTokens st rest
      else if token = "--verbose" ∨ token = "-v" then walkTokens st rest
      else if startsWithS token "http://" ∨ startsWithS token "https://" then
        walkTokens { st with url := token } rest
      else if startsWithS token "localhost:" ∨ startsWithS token "127.0.0.1:" then
        walkTokens { st with url := "http://" ++ token } rest
      else walkTokens st rest

/-- Query-string extraction (lines 151-164): if the URL contains a question
mark, truncate it there and decode the query pairs with first-value-wins
keys.  Percent decoding is not modelled; no claim exercises query splitting. -/
def splitQuery (u : String) : String × List (String × String) :=
  if u.data.contains '?' then
    let base := u.data.takeWhile (fun c => c ≠ '?')
    let q := (u.data.dropWhile (fun c => c ≠ '?')).drop 1
    let pairs := (splitOnChar '&' q).filterMap (fun piece =>
      if piece.isEmpty then none
      else
        match splitN2 '=' piece with
        | [k, v] => some (String.mk k, String.mk v)
        | _ => some (String.mk piece, ""))
    let dedup := pairs.foldl (fun acc kv =>
      if acc.any (fun kv2 => kv2.1 = kv.1) then acc else acc ++ [kv]) []
    (String.mk base, dedup)
  else (u, [])

/-- The regex scan for path variables (lines 166-173): every span between an
opening and the next closing brace with a non-empty body names a path
variable; names are collected into a map keyed by name. -/
def pathVarsAux : List Char → Option (List Char) → List String
  | [], _ => []
  | c :: rest, some content =>
    if c = cbraceCh then
      if content.isEmpty then pathVarsAux rest none
      else String.mk content.reverse :: pathVarsAux rest none
    else pathVarsAux rest (some (c :: content))
  | c :: rest, none =>
    if c = obraceCh then pathVarsAux rest (some []) else pathVarsAux rest none

/-- Path variable names of a URL, deduplicated as Go map keys are. -/
def pathVars (u : String) : List String :=
  (pathVarsAux u.data none).eraseDups

/-- classifyRequest of curl_parser.go: ordered rules, first match wins. -/
def classifyRequest (url method : String) : String :=
  let urlLower := goToLower url
  let m := goToUpper method
  if containsSub urlLower "/$export" then "FHIR Bulk Export"
  else if containsSub urlLower "/fhir/" ∧ m = "GET" then "FHIR Read"
  else if containsSub urlLower "/fhir/" ∧ m = "POST" then "FHIR Create/Action"
  else if containsSub urlLower "/fhir/" ∧ m = "PUT" then "FHIR Update"
  else if containsSub urlLower "/fhir/" ∧ m = "DELETE" then "FHIR Delete"
  else if m = "GET" then "Fetch"
  else if m = "POST" then "Submit"
  else if m = "PUT" then "Update"
  else if m = "DELETE" then "Delete"
  else if m = "PATCH" then "Patch"
  else "Other"

/-- utils.CurlRequest: the parsed command record. -/
structure CurlRequest where
  method : String
  url : String
  headers : List (String × String)
  body : String
  queryParams : List (String × String)
  pathVariables : List String
  requestType : String
  rawCommand : String
deriving Repr, DecidableEq

/-- Result of ParseCurlCommand: a Go runtime panic, an error return, or the
parsed command. -/
inductive ParseOutcome where
  | panic
  | err (msg : String)
  | ok (r : CurlRequest)
deriving Repr, DecidableEq

/-- ParseCurlCommand of curl_parser.go: empty-input check, normalization,
tokenization, token walk, URL validation, query split, path-variable scan and
classification.  Go url.Parse error returns are not modelled (url.Parse
accepts every URL any claim constructs). -/
def parseCurlCommand (cmd : String) : ParseOutcome :=
  if cmd = "" then .err "curl command cannot be empty"
  else
    let command := fieldsJoin (removeBackslashes (replaceBackslashNewline cmd.data))
    let tokens := tokenize command
    if tokens.length = 0 then .err "invalid curl command"
    else
      match walkTokens { method := "GET", url := "", headers := [], body := "" } tokens with
      | .panic => .panic
      | .fail m => .err m
      | .done st =>
        if st.url = "" then .err "no URL found in curl command"
        else
          let uq := splitQuery st.url
          .ok { method := st.method, url := uq.1, headers := st.headers, body := st.body,
                queryParams := uq.2, pathVariables := pathVars uq.1,
                requestType := classifyRequest uq.1 st.method, rawCommand := cmd }

/-- One test case as executeTests of the test-run service sees it: either its
TestSpec JSON fails to unmarshal, or the executor runs it and reports a
status string ("PASSED" or "FAILED"). -/
inductive TestOutcome where
  | unparseable
  | executed (status : String)
deriving Repr, DecidableEq

/-- The counting loop of executeTests (lines 128-157 of the test-run
service): an unparseable spec is recorded as failed; otherwise the recorded
status is "failed" exactly when the executor said FAILED. -/
def execLoop : Nat → Nat → List TestOutcome → Nat × Nat
  | p, f, [] => (p, f)
  | p, f, .unparseable :: rest => execLoop p (f + 1) rest
  | p, f, .executed s :: rest =>
    if s = "FAILED" then execLoop p (f + 1) rest else execLoop (p + 1) f rest

/-- The terminal update executeTests writes to the run row. -/
structure RunUpdate where
  status : String
  passed : Nat
  failed : Nat
deriving Repr, DecidableEq

/-- The terminal state executeTests computes on normal completion (lines
109-181): an empty batch fails with zero counts; otherwise the status is
completed unless some test failed, with the exact counters. -/
def executeTestsAgg (cases : List TestOutcome) : RunUpdate :=
  if cases.length = 0 then { status := "failed", passed := 0, failed := 0 }
  else
    let pf := execLoop 0 0 cases
    { status := if pf.2 > 0 then "failed" else "completed", passed := pf.1, failed := pf.2 }

/-- The run row fields the orchestrator owns. -/
structure TestRun where
  status : String
  totalTests : Nat
  passedTests : Nat
  failedTests : Nat
deriving Repr, DecidableEq

/-- StartTestRun before launching the batch: running status and the total
set to the number of resolved test cases (lines 32-61). -/
def startTestRunRecord (cases : List TestOutcome) : TestRun :=
  { status := "running", totalTests := cases.length, passedTests := 0, failedTests := 0 }

/-- The final executeTests update: status and pass/fail counters change, the
total does not (it is absent from the Updates map). -/
def finishTestRun (tr : TestRun) (u : RunUpdate) : TestRun :=
  { tr with status := u.status, passedTests := u.passed, failedTests := u.failed }

/-- A batch run to normal completion: StartTestRun followed by the terminal
executeTests update. -/
def runBatch (cases : List TestOutcome) : TestRun :=
  finishTestRun (startTestRunRecord cases) (executeTestsAgg cases)

/-- Whether executeTests counts a test case as failed: unparseable spec, or
an executor verdict of FAILED (statement-side characterization). -/
def caseFails : TestOutcome → Bool
  | .unparseable => true
  | .executed s => s == "FAILED"

/-- Envelope for the C5 witness run. -/
def c5Env : Envelope := { statusCode := 200, headers := [], body := .obj [("a", .num 1)] }

/-- Assertion list for the C5 witness run: a failing status_code assertion,
a skipped header assertion, a skipped non-object entry and a failing
unknown-type assertion. -/
def c5As : List JsonValue :=
  [.obj [("type", .str "status_code"), ("value", .num 301)],
   .obj [("type", .str "exists"), ("path", .str "headers")],
   .str "junk",
   .obj [("type", .str "bogus")]]

/-- First evaluated result of the C5 witness run. -/
def c5R1 : AssertionResult :=
  { type := "status_code", expected := .num 301, actual := .num 200, passed := false,
    message := "Expected status code 301, got 200" }

/-- Second evaluated result of the C5 witness run. -/
def c5R2 : AssertionResult :=
  { type := "bogus", passed := false, message := "Unknown assertion type: bogus" }

/-- Envelope for the C1 witness: actual status 201. -/
def c1Env : Envelope := { statusCode := 201, headers := [], body := .null }

/-- Assertion map for the C1 witness: expected status 200 in the value field. -/
def c1Map : JMap := [("type", .str "status_code"), ("value", .num 200)]

/-- Envelope for the C2 counterexample. -/
def c2Env : Envelope := { statusCode := 200, headers := [], body := .obj [("x", .str "bb")] }

/-- An equals assertion whose value key holds a string, not a number. -/
def c2Map : JMap := [("type", .str "equals"), ("path", .str "body.x"), ("value", .str "aa")]

/-- Envelope for the C3 counterexample: the body carries an explicit null. -/
def c3Env : Envelope := { statusCode := 200, headers := [], body := .obj [("a", .null)] }

/-- An exists assertion whose path resolves to the explicit null. -/
def c3Map : JMap := [("type", .str "exists"), ("path", .str "body.a")]

/-- Envelope for the C4 failing input. -/
def c4Env : Envelope :=
  { statusCode := 200, headers := [], body := .obj [("msg", .str "hello world")] }

/-- A json_path contains assertion whose expected string is a strict
substring of the resolved value. -/
def c4Map : JMap :=
  [("type", .str "json_path"), ("path", .str "msg"), ("matcher", .str "contains"),
   ("expected", .str "hello")]

/-- The last element of a cons cell, as an option. -/
theorem getLast?_cons_getD {α : Type} (a : α) (l : List α) :
    (a :: l).getLast? = some (l.getLast?.getD a) := by
  induction l generalizing a with
  | nil => rfl
  | cons b t ih =>
    rw [List.getLast?_cons_cons, ih b]
    rfl

/-- Characters of "body" prepended to a string. -/
theorem string_append_body_data (s : String) :
    ("body" ++ s).data = 'b' :: 'o' :: 'd' :: 'y' :: s.data := by
  cases s with
  | mk l => rfl

/-- A path that does not begin with an opening bracket is left unchanged by
the executor's path rewrite. -/
theorem normalizePath_not_bracket (p : String) (h : p.data.head? ≠ some '[') :
    normalizePath p = p := by
  unfold normalizePath
  cases hd : p.data with
  | nil => rfl
  | cons c t =>
    rw [hd] at h
    simp only [List.head?_cons, ne_eq, Option.some.injEq] at h
    exact if_neg h

/-- C9: the exists/equals path rewrite is deterministic and idempotent:
a bracket-rooted path such as "[0].id" is rewritten to "body.0.id", a path
not beginning with an opening bracket (such as an already-normalized
"body.0.id") is used unmodified, and applying the rewrite twice equals
applying it once. -/
theorem c9_normalization_idempotent :
    normalizePath "[0].id" = "body.0.id"
    ∧ (∀ p : String, p.data.head? ≠ some '[' → normalizePath p = p)
    ∧ (∀ p : String, normalizePath (normalizePath p) = normalizePath p) := by
  refine ⟨rfl, fun p h => normalizePath_not_bracket p h, fun p => ?_⟩
  by_cases h : p.data.head? = some '['
  · have h2 : normalizePath p = "body" ++ bracketToDot p := by
      unfold normalizePath
      cases hd : p.data with
      | nil => rw [hd] at h; simp at h
      | cons c t =>
        rw [hd] at h
        simp only [List.head?_cons, Option.some.injEq] at h
        exact if_pos h
    rw [h2]
    apply normalizePath_not_bracket
    rw [string_append_body_data]
    simp
  · rw [normalizePath_not_bracket p h, normalizePath_not_bracket p h]

/-- C9 witness: the rewrite leaves "body.0.id" unchanged and is idempotent
on "[0].id". -/
theorem c9_normalization_idempotent_witness :
    normalizePath "body.0.id" = "body.0.id"
    ∧ normalizePath (normalizePath "[0].id") = normalizePath "[0].id" :=
  ⟨c9_normalization_idempotent.2.1 "body.0.id" (by decide),
   c9_normalization_idempotent.2.2 "[0].id"⟩

/-- The executeTests counting loop adds the number of non-failing and failing
cases to its accumulators. -/
theorem execLoop_eq (cases : List TestOutcome) :
    ∀ p f, execLoop p f cases
      = (p + (cases.filter (fun c => !caseFails c)).length,
         f + (cases.filter caseFails).length) := by
  induction cases with
  | nil => intro p f; simp [execLoop]
  | cons c rest ih =>
    intro p f
    cases c with
    | unparseable =>
      rw [show execLoop p f (TestOutcome.unparseable :: rest) = execLoop p (f + 1) rest from rfl,
        ih]
      simp [List.filter_cons, caseFails]
      omega
    | executed s =>
      by_cases hs : s = "FAILED"
      · rw [show execLoop p f (TestOutcome.executed s :: rest)
            = if s = "FAILED" then execLoop p (f + 1) rest else execLoop (p + 1) f rest from rfl,
          if_pos hs, ih]
        simp [List.filter_cons, caseFails, hs]
        omega
      · rw [show execLoop p f (TestOutcome.executed s :: rest)
            = if s = "FAILED" then execLoop p (f + 1) rest else execLoop (p + 1) f rest from rfl,
          if_neg hs, ih]
        simp [List.filter_cons, caseFails, hs]
        omega

/-- The run row after a normally completing non-empty batch. -/
theorem runBatch_eq (cases : List TestOutcome) (h : ¬ cases.length = 0) :
    runBatch cases =
      { status := if 0 < (cases.filter caseFails).length then "failed" else "completed",
        totalTests := cases.length,
        passedTests := (cases.filter (fun c => !caseFails c)).length,
        failedTests := (cases.filter caseFails).length } := by
  unfold runBatch finishTestRun startTestRunRecord executeTestsAgg
  rw [if_neg h, execLoop_eq]
  simp [Nat.pos_iff_ne_zero]

/-- C8: on normal completion of a non-empty batch, the run's final status is
completed when every test passed and failed when at least one test failed
(an unparseable spec counts as failed), and the recorded total, passed and
failed counts exactly equal the number of supplied, passed and failed test
cases. -/
theorem c8_run_aggregation (cases : List TestOutcome) (h : cases ≠ []) :
    (runBatch cases).totalTests = cases.length
    ∧ (runBatch cases).passedTests = (cases.filter (fun c => !caseFails c)).length
    ∧ (runBatch cases).failedTests = (cases.filter caseFails).length
    ∧ ((runBatch cases).status = "completed" ↔ (cases.filter caseFails).length = 0)
    ∧ ((runBatch cases).status = "failed" ↔ 0 < (cases.filter caseFails).length) := by
  have hl : ¬ cases.length = 0 := by simpa using h
  simp only [runBatch_eq cases hl]
  by_cases hf : 0 < (cases.filter caseFails).length
  · rw [if_pos hf]
    refine ⟨trivial, trivial, trivial, ?_, ?_⟩
    · constructor
      · intro hc; exact absurd hc (by decide)
      · intro hz; omega
    · exact ⟨fun _ => hf, fun _ => rfl⟩
  · rw [if_neg hf]
    refine ⟨trivial, trivial, trivial, ?_, ?_⟩
    · constructor
      · intro _; omega
      · intro _; rfl
    · constructor
      · intro hc; exact absurd hc (by decide)
      · intro hz; exact absurd hz hf

/-- C8 witness: a three-case batch with one executor pass, one unparseable
spec and one executor failure yields a failed run with exact counters. -/
theorem c8_run_aggregation_witness :
    (runBatch [.executed "PASSED", .unparseable, .executed "FAILED"]).totalTests
        = ([.executed "PASSED", .unparseable, .executed "FAILED"] : List TestOutcome).length
    ∧ (runBatch [.executed "PASSED", .unparseable, .executed "FAILED"]).passedTests
        = (([.executed "PASSED", .unparseable, .executed "FAILED"] : List TestOutcome).filter
            (fun c => !caseFails c)).length
    ∧ (runBatch [.executed "PASSED", .unparseable, .executed "FAILED"]).failedTests
        = (([.executed "PASSED", .unparseable, .executed "FAILED"] : List TestOutcome).filter
            caseFails).length
    ∧ ((runBatch [.executed "PASSED", .unparseable, .executed "FAILED"]).status = "completed"
        ↔ (([.executed "PASSED", .unparseable, .executed "FAILED"] : List TestOutcome).filter
            caseFails).length = 0)
    ∧ ((runBatch [.executed "PASSED", .unparseable, .executed "FAILED"]).status = "failed"
        ↔ 0 < (([.executed "PASSED", .unparseable, .executed "FAILED"] : List TestOutcome).filter
            caseFails).length) :=
  c8_run_aggregation [.executed "PASSED", .unparseable, .executed "FAILED"] (by decide)

/-- Invariant of the ExecuteTest assertion loop: the final result list is the
accumulator plus the evaluated results, the final status is FAILED exactly
when a newly evaluated assertion failed (otherwise the incoming status), and
the final message is that of the last newly failing assertion (otherwise the
incoming message). -/
theorem runAssertions_inv (env : Envelope) (as : List JsonValue) :
    ∀ (st0 msg0 : String) (acc : List AssertionResult) (st msg : String)
      (rs : List AssertionResult),
      runAssertions env st0 msg0 acc as = some (st, msg, rs) →
      ∃ new, rs = acc ++ new
        ∧ st = (if new.any (fun r => !r.passed) then "FAILED" else st0)
        ∧ msg = (match (new.filter (fun r => !r.passed)).getLast? with
                 | some r => r.message
                 | none => msg0) := by
  induction as with
  | nil =>
    intro st0 msg0 acc st msg rs h
    simp only [runAssertions, Option.some.injEq, Prod.mk.injEq] at h
    obtain ⟨h1, h2, h3⟩ := h
    subst h1; subst h2; subst h3
    exact ⟨[], by simp, by simp, by simp⟩
  | cons a rest ih =>
    intro st0 msg0 acc st msg rs h
    cases a with
    | obj m =>
      simp only [runAssertions] at h
      by_cases hskip : skipAssertion m
      · rw [if_pos hskip] at h
        exact ih _ _ _ _ _ _ h
      · rw [if_neg hskip] at h
        cases hex : executeAssertion env m with
        | none => rw [hex] at h; cases h
        | some r =>
          simp only [hex] at h
          by_cases hp : r.passed
          · rw [if_pos hp] at h
            obtain ⟨new, hrs, hst, hmsg⟩ := ih _ _ _ _ _ _ h
            refine ⟨r :: new, ?_, ?_, ?_⟩
            · rw [hrs]; simp
            · rw [hst]; simp [hp]
            · rw [hmsg]; simp [hp]
          · rw [if_neg hp] at h
            obtain ⟨new, hrs, hst, hmsg⟩ := ih _ _ _ _ _ _ h
            have hpf : r.passed = false := by simpa using hp
            refine ⟨r :: new, ?_, ?_, ?_⟩
            · rw [hrs]; simp
            · rw [hst]; simp [hpf]
            · rw [hmsg]
              simp only [List.filter_cons, hpf, Bool.not_false, if_true, getLast?_cons_getD]
              cases hgl : (new.filter (fun r => !r.passed)).getLast? with
              | none => simp
              | some x => simp
    | null => exact ih _ _ _ _ _ _ h
    | bool b => exact ih _ _ _ _ _ _ h
    | num n => exact ih _ _ _ _ _ _ h
    | str s => exact ih _ _ _ _ _ _ h
    | arr xs => exact ih _ _ _ _ _ _ h

/-- C5: starting from the initial PASSED status, the assertion loop ends
FAILED exactly when some evaluated (non-skipped) assertion failed, and the
recorded error message is the message of the last failing evaluated assertion
in declaration order (empty when none failed). -/
theorem c5_aggregate_last_failure (env : Envelope) (as : List JsonValue)
    (st msg : String) (rs : List AssertionResult)
    (h : runAssertions env "PASSED" "" [] as = some (st, msg, rs)) :
    (st = "FAILED" ↔ ∃ r ∈ rs, r.passed = false)
    ∧ msg = (match (rs.filter (fun r => !r.passed)).getLast? with
             | some r => r.message
             | none => "") := by
  obtain ⟨new, hrs, hst, hmsg⟩ := runAssertions_inv env as "PASSED" "" [] st msg rs h
  simp only [List.nil_append] at hrs
  subst hrs
  refine ⟨?_, hmsg⟩
  rw [hst]
  by_cases ha : rs.any (fun r => !r.passed)
  · rw [if_pos ha]
    simp only [List.any_eq_true, Bool.not_eq_true'] at ha
    constructor
    · intro _; exact ha
    · intro _; rfl
  · rw [if_neg ha]
    simp only [List.any_eq_true, Bool.not_eq_true'] at ha
    constructor
    · intro hc; exact absurd hc (by decide)
    · intro hex; exact absurd hex ha

/-- C5 witness: on a concrete run with two failing evaluated assertions the
status is FAILED and the recorded message is the second (last) failure's. -/
theorem c5_aggregate_last_failure_witness :
    ("FAILED" = "FAILED" ↔ ∃ r ∈ [c5R1, c5R2], r.passed = false)
    ∧ "Unknown assertion type: bogus"
        = (match ([c5R1, c5R2].filter (fun r => !r.passed)).getLast? with
           | some r => r.message
           | none => "") :=
  c5_aggregate_last_failure c5Env c5As "FAILED" "Unknown assertion type: bogus" [c5R1, c5R2] rfl

/-- C1: a status_code assertion carrying a numeric expected value passes
exactly when the actual status equals it, or the expected value is 200 and
the actual status is 201; any other mismatch fails with a message naming
the expected and actual codes. -/
theorem c1_status_code_tolerance (env : Envelope) (a : JMap) (e : Int)
    (hty : jGet a "type" = some (.str "status_code"))
    (hv : jGet a "value" = some (.num e)) :
    ∃ r, executeAssertion env a = some r
      ∧ (r.passed = true ↔ (env.statusCode = e ∨ (e = 200 ∧ env.statusCode = 201)))
      ∧ (r.passed = false →
          r.message = "Expected status code " ++ toString e ++ ", got " ++ toString env.statusCode) := by
  have heq : executeAssertion env a = some
      { type := "status_code", expected := .num e, actual := .num env.statusCode,
        passed := env.statusCode == e || (e == 200 && env.statusCode == 201),
        message :=
          if env.statusCode == e || (e == 200 && env.statusCode == 201) then ""
          else "Expected status code " ++ toString e ++ ", got " ++ toString env.statusCode } := by
    simp only [executeAssertion, hty, hv]
  refine ⟨_, heq, ?_, ?_⟩
  · simp
  · intro hp
    simp only [AssertionResult.passed] at hp
    simp [hp]

/-- C1 witness: expected 200 tolerates an actual 201. -/
theorem c1_status_code_tolerance_witness :
    ∃ r, executeAssertion c1Env c1Map = some r
      ∧ (r.passed = true ↔ (c1Env.statusCode = 200 ∨ ((200 : Int) = 200 ∧ c1Env.statusCode = 201)))
      ∧ (r.passed = false →
          r.message = "Expected status code " ++ toString (200 : Int) ++ ", got "
            ++ toString c1Env.statusCode) :=
  c1_status_code_tolerance c1Env c1Map 200 rfl rfl

/-- C2 counterexample: an equals assertion map with a non-numeric value key
does perform its comparison and fails, although the claim says every
status_code or equals map without a numeric value key passes trivially. -/
theorem c2_value_field_counterexample :
    jGet c2Map "value" = some (.str "aa")
    ∧ (executeAssertion c2Env c2Map).map (fun r => r.passed) = some false := ⟨rfl, rfl⟩

/-- C2 amended: status_code reads its expected value from a numeric value
key and passes trivially without one; equals reads any value key and passes
trivially only when the key is entirely absent; the typed AssertionSpec
serialises no value key at all, and the default ToTestSpec status_code
assertion (keyed expected) therefore evaluates to a trivial untouched pass. -/
theorem c2_value_field_amended :
    (∀ (env : Envelope) (a : JMap),
        jGet a "type" = some (.str "status_code") →
        (∀ v, jGet a "value" = some v → ∀ n : Int, v ≠ .num n) →
        executeAssertion env a = some { type := "status_code" })
    ∧ (∀ (env : Envelope) (a : JMap) (p : String),
        jGet a "type" = some (.str "equals") →
        jGet a "path" = some (.str p) →
        jGet a "value" = none →
        executeAssertion env a
          = some { type := "equals", path := normalizePath p, matcher := "equals" })
    ∧ (∀ s : AssertionSpec, jGet (assertionSpecJson s) "value" = none)
    ∧ (∀ env : Envelope, ∀ a ∈ toTestSpecAssertions,
        executeAssertion env a = some { type := "status_code" }) := by
  refine ⟨?_, ?_, ?_, ?_⟩
  · intro env a hty hv
    simp only [executeAssertion, hty]
    cases hval : jGet a "value" with
    | none => rfl
    | some v =>
      cases v with
      | num n => exact absurd rfl (hv (.num n) hval n)
      | null => rfl
      | bool b => rfl
      | str s => rfl
      | arr xs => rfl
      | obj fs => rfl
  · intro env a p hty hp hv
    simp only [executeAssertion, hty, hp, hv]
  · intro s
    by_cases hp : s.path = "" <;> by_cases hm : s.matcher = "" <;>
      simp [assertionSpecJson, jGet, List.lookup, hp, hm]
  · intro env a ha
    simp only [toTestSpecAssertions, List.mem_singleton] at ha
    subst ha
    rfl

/-- C2 amended witness: the ToTestSpec default status_code assertion, which
has only an expected key, passes trivially, and a serialized AssertionSpec
has no value key. -/
theorem c2_value_field_amended_witness :
    executeAssertion c2Env [("type", .str "status_code"), ("expected", .num 200)]
      = some { type := "status_code" }
    ∧ jGet (assertionSpecJson { type := "status_code", expected := some (.num 200) }) "value"
      = none :=
  ⟨c2_value_field_amended.1 c2Env [("type", .str "status_code"), ("expected", .num 200)] rfl
      (fun _v hv _n => nomatch hv),
   c2_value_field_amended.2.2.1 { type := "status_code", expected := some (.num 200) }⟩

/-- C3 counterexample: the path resolves to an explicit JSON null and the
exists assertion passes, although the claim says an explicit null must make
it fail. -/
theorem c3_exists_null_counterexample :
    jResolve (pathSegs (normalizePath "body.a")) (envJson c3Env) = some .null
    ∧ (executeAssertion c3Env c3Map).map (fun r => r.passed) = some true := ⟨rfl, rfl⟩

/-- C3 amended: an exists assertion passes exactly when the (rewritten) path
is present in the envelope document; absence fails with a message naming the
path, and an explicit JSON null at the path counts as present (gjson Exists
is true on a null value), so it passes. -/
theorem c3_exists_amended (env : Envelope) (a : JMap) (p : String)
    (hty : jGet a "type" = some (.str "exists"))
    (hp : jGet a "path" = some (.str p)) :
    ∃ r, executeAssertion env a = some r
      ∧ (r.passed = true ↔ ∃ v, jResolve (pathSegs (normalizePath p)) (envJson env) = some v)
      ∧ (r.passed = false →
          r.message = "JSON path '" ++ normalizePath p ++ "' does not exist") := by
  have heq : executeAssertion env a = some
      { type := "exists", path := normalizePath p, matcher := "exists",
        passed := (jResolve (pathSegs (normalizePath p)) (envJson env)).isSome,
        message := if (jResolve (pathSegs (normalizePath p)) (envJson env)).isSome then ""
                   else "JSON path '" ++ normalizePath p ++ "' does not exist" } := by
    simp only [executeAssertion, hty, hp]
  refine ⟨_, heq, ?_, ?_⟩
  · simp [Option.isSome_iff_exists]
  · intro hpf
    simp only [AssertionResult.passed] at hpf
    simp [hpf]

/-- C3 amended witness: at the explicit-null instance the assertion passes
and the path is present. -/
theorem c3_exists_amended_witness :
    ∃ r, executeAssertion c3Env c3Map = some r
      ∧ (r.passed = true
          ↔ ∃ v, jResolve (pathSegs (normalizePath "body.a")) (envJson c3Env) = some v)
      ∧ (r.passed = false →
          r.message = "JSON path '" ++ normalizePath "body.a" ++ "' does not exist") :=
  c3_exists_amended c3Env c3Map "body.a" rfl rfl

/-- C4: the contains matcher compares the resolved string for equality, so
it fails on a value that strictly contains the expected string — even while
its own failure message says "Expected to contain".  The second conjunct
exhibits the substring decomposition the claim's pass condition demands. -/
theorem c4_contains_behavior :
    executeAssertion c4Env c4Map
      = some { type := "json_path", path := "msg", matcher := "contains",
               expected := .str "hello", actual := .str "hello world", passed := false,
               message := "Expected to contain 'hello', got 'hello world'" }
    ∧ "hello world" = "" ++ "hello" ++ " world" := ⟨rfl, rfl⟩

/-- C6 counterexample: an explicit -X GET followed by a data flag parses as
POST, although the claim says an explicit method is never overridden. -/
theorem c6_explicit_get_counterexample :
    parseCurlCommand "curl -X GET -d abc http://x.com"
      = .ok { method := "POST", url := "http://x.com", headers := [], body := "abc",
              queryParams := [], pathVariables := [], requestType := "Submit",
              rawCommand := "curl -X GET -d abc http://x.com" } := rfl

/-- C6 amended: a data or form flag promotes the method to POST exactly when
the method at that point of the token walk equals GET — whether that is the
default or an explicitly requested GET — and preserves any other method;
hence -d alone gives POST, an explicit non-GET method survives a data flag,
-X GET after the data flag yields GET, but -X GET before the data flag is
overridden to POST. -/
theorem c6_data_flag_amended :
    (∀ (st : CurlState) (rest : List (List Char)) (d : List Char),
        (d = "-d".data ∨ d = "--data".data ∨ d = "--data-raw".data ∨ d = "--data-binary".data
          ∨ d = "-F".data ∨ d = "--form".data) →
        ∃ st1, walkTokens st (d :: "abc".data :: rest) = walkTokens st1 rest
          ∧ st1.method = (if st.method = "GET" then "POST" else st.method))
    ∧ parseCurlCommand "curl -d abc http://x.com"
        = .ok { method := "POST", url := "http://x.com", headers := [], body := "abc",
                queryParams := [], pathVariables := [], requestType := "Submit",
                rawCommand := "curl -d abc http://x.com" }
    ∧ parseCurlCommand "curl -X PUT -d abc http://x.com"
        = .ok { method := "PUT", url := "http://x.com", headers := [], body := "abc",
                queryParams := [], pathVariables := [], requestType := "Update",
                rawCommand := "curl -X PUT -d abc http://x.com" }
    ∧ parseCurlCommand "curl -d abc -X GET http://x.com"
        = .ok { method := "GET", url := "http://x.com", headers := [], body := "abc",
                queryParams := [], pathVariables := [], requestType := "Fetch",
                rawCommand := "curl -d abc -X GET http://x.com" } := by
  refine ⟨?_, rfl, rfl, rfl⟩
  intro st rest d hd
  rcases hd with h | h | h | h | h | h <;> subst h <;> refine ⟨_, rfl, ?_⟩ <;>
    by_cases hm : st.method = "GET" <;> simp [hm]

/-- C6 amended witness: from the initial GET state, a -d flag with its
argument continues the walk with method POST. -/
theorem c6_data_flag_amended_witness :
    ∃ st1, walkTokens { method := "GET", url := "", headers := [], body := "" }
        ("-d".data :: "abc".data :: [])
      = walkTokens st1 []
      ∧ st1.method
        = (if ({ method := "GET", url := "", headers := [], body := "" } : CurlState).method = "GET"
           then "POST"
           else ({ method := "GET", url := "", headers := [], body := "" } : CurlState).method) :=
  c6_data_flag_amended.1 { method := "GET", url := "", headers := [], body := "" } [] "-d".data
    (Or.inl rfl)

/-- C7: a lone single quote makes stripQuotes slice out of bounds, so the
parser panics on "curl '" instead of reporting the no-URL error; the empty
command and a URL-less command that avoids the quote bug do produce their
distinct error returns. -/
theorem c7_parse_outcomes :
    parseCurlCommand "curl '" = .panic
    ∧ stripQuotes [sqCh] = none
    ∧ parseCurlCommand "" = .err "curl command cannot be empty"
    ∧ parseCurlCommand "curl -s" = .err "no URL found in curl command" := ⟨rfl, rfl, rfl, rfl⟩

/-- C10: an assertions field that is absent or serialises to JSON null (a nil
Go slice) fails the test with "No assertions found", while a present but
empty assertion array passes with no assertion evaluated. -/
theorem c10_assertions_field (env : Envelope) :
    assertionsPhase env (some (testSpecAssertionsJson none))
        = some ("FAILED", "No assertions found", [])
    ∧ assertionsPhase env none = some ("FAILED", "No assertions found", [])
    ∧ assertionsPhase env (some (testSpecAssertionsJson (some [])))
        = some ("PASSED", "", []) := ⟨rfl, rfl, rfl⟩
